import Mathlib

/-!
Verification of the BACnet/IP codec core of the `modore` repository.

The Go source is shallowly embedded: Go `uint` (64-bit) values are modelled
as `Nat` (with hypotheses `< 2^64` where the machine width matters, and
explicit `% 2^w` where Go's wrap-around arithmetic matters, e.g. the
`uint32` shifts of the object-identifier encoder and the `byte(x)`
conversions); Go byte slices are `List Nat`; fallible Go functions return
`Except BErr`; a Go runtime panic (nil-pointer dereference, write to an
index of a nil slice) is modelled as the distinguished error `BErr.panicked`,
noted at each site where it stands for a panic.
-/

namespace Modore

/-- The closed error taxonomy of `pkg/bacnet/errors.go`, extended with `eof`
(a buffer read past the end, Go `io.EOF`), `panicked` (a Go runtime panic,
see the module comment) and `other` for ad-hoc `fmt.Errorf` errors. -/
inductive BErr where
  | invalidData
  | insufficientData
  | valueTooLarge
  | notImplemented
  | eof
  | panicked
  | other (msg : String)
  deriving DecidableEq

deriving instance DecidableEq for Except

/-! ## Primitives (`src/internal/apdu/tags.go`; `src/pkg/apdu/apdu.go` holds
a byte-for-byte identical copy of the three functions below) -/

/-- `GetUnsignedIntByteSize` (`src/internal/apdu/tags.go` lines 161-179): the
chain of threshold comparisons selecting the encoded width. -/
def GetUnsignedIntByteSize (val : Nat) : Nat :=
  if val ≤ 0xFF then 1
  else if val ≤ 0xFFFF then 2
  else if val ≤ 0xFFFFFF then 3
  else if val ≤ 0xFFFFFFFF then 4
  else if val ≤ 0xFFFFFFFFFF then 5
  else if val ≤ 0xFFFFFFFFFFFF then 6
  else if val ≤ 0xFFFFFFFFFFFFFF then 7
  else 8

/-- `EncodeUint` (`src/internal/apdu/tags.go` lines 187-199): for each index
`i` of the output buffer, mask one byte of `val` and shift it down
(big-endian). The loop `for i := 0; i < numBytes; i++` is the map over
`List.range numBytes`. -/
def EncodeUint (val numBytes : Nat) : List Nat :=
  (List.range numBytes).map fun i =>
    (val &&& (0xFF <<< ((numBytes - 1 - i) * 8))) >>> ((numBytes - 1 - i) * 8)

/-- `DecodeUint` (`src/internal/apdu/tags.go` lines 202-213): sum of each
byte shifted to its big-endian position. -/
def DecodeUint (raw : List Nat) : Nat :=
  ((List.range raw.length).map fun i =>
    raw.getD i 0 <<< ((raw.length - 1 - i) * 8)).sum

/-! ## Tag-codec methods of `TagTypeBase` (`src/internal/apdu/tags.go`) and
their byte-for-byte identical copies on `APDUTypeBase`
(`src/pkg/apdu/apdu.go`) -/

/-- `TagTypeBase.encodeTagNumber` (`src/internal/apdu/tags.go` lines 99-110).
Takes the current control byte, returns the updated control byte and the
trailing tag-number bytes (`[]` for Go `nil`). Note the source condition is
`tagNumber < 14`. `byte(tagNumber << 4)` truncates to a byte, hence `% 256`. -/
def TagTypeBase.encodeTagNumber (control tagNumber : Nat) : Nat × List Nat :=
  if tagNumber < 14 then ((tagNumber <<< 4) % 256, [])
  else (0xF0 ||| control, [tagNumber])

/-- `APDUTypeBase.encodeTagNumber` (`src/pkg/apdu/apdu.go` lines 237-248),
identical to `TagTypeBase.encodeTagNumber`. -/
def APDUTypeBase.encodeTagNumber (control tagNumber : Nat) : Nat × List Nat :=
  if tagNumber < 14 then ((tagNumber <<< 4) % 256, [])
  else (0xF0 ||| control, [tagNumber])

/-- `TagTypeBase.encodeClass` (`src/internal/apdu/tags.go` lines 112-115):
`*control |= byte(t << 3)`. -/
def TagTypeBase.encodeClass (control t : Nat) : Nat :=
  control ||| ((t <<< 3) % 256)

/-- `TagTypeBase.encodeLength` (`src/internal/apdu/tags.go` lines 117-155).
Returns the updated control byte and the trailing length bytes. In the
`len > 65535` branch the source executes `lengthBytes[0] = 255` on the nil
slice declared by `var lengthBytes []byte`: an index-out-of-range panic,
modelled as `BErr.panicked`. -/
def TagTypeBase.encodeLength (control len : Nat) : Except BErr (Nat × List Nat) :=
  if len ≤ 4 then .ok (control ||| len, [])
  else
    let control := control ||| 5
    if len ≤ 253 then .ok (control, EncodeUint len 1)
    else if len ≤ 65535 then .ok (control, 254 :: EncodeUint len 2)
    else .error .panicked

/-- `APDUTypeBase.encodeLength` (`src/pkg/apdu/apdu.go` lines 255-293),
identical to `TagTypeBase.encodeLength`, including the nil-slice write
(panic) in the `len > 65535` branch. -/
def APDUTypeBase.encodeLength (control len : Nat) : Except BErr (Nat × List Nat) :=
  if len ≤ 4 then .ok (control ||| len, [])
  else
    let control := control ||| 5
    if len ≤ 253 then .ok (control, EncodeUint len 1)
    else if len ≤ 65535 then .ok (control, 254 :: EncodeUint len 2)
    else .error .panicked

/-! ## Application-class tags (`src/pkg/apdu/application.go`) -/

/-- `ApplicationBoolType` (`src/pkg/apdu/application.go` lines 22-25). -/
structure ApplicationBoolType where
  val : Bool
  deriving DecidableEq

/-- `ApplicationBoolType.EncodeAsTagData` (`src/pkg/apdu/application.go`
lines 66-83): tag number `TagNumberDataBool = 1`, then the class bit, then
`shift := 0; if !p.val { shift = 1 }; control |= byte(1) << shift`. The
trailing bytes returned by `encodeTagNumber` are discarded by the source. -/
def ApplicationBoolType.EncodeAsTagData (p : ApplicationBoolType) (tagClass : Nat) :
    List Nat :=
  let control := (TagTypeBase.encodeTagNumber 0 1).1
  let control := TagTypeBase.encodeClass control tagClass
  let shift := if !p.val then 1 else 0
  let control := control ||| ((1 <<< shift) % 256)
  [control]

/-! ## Free tag-codec helpers of package `internal/apdu`

`src/internal/apdu/context_specific.go` calls free functions
`encodeTagNumber`, `encodeClass`, `encodeLength`, `decodeTagNumber`,
`decodeClass`, `decodeLength`: the file defining them is not under `src/`
(only their tests, in `src/unnamed/part_000`, and their callers are). They
are modelled from the spec (§4.2.1-§4.2.3) below, consistent with those
tests. Decoding helpers consume a byte list and return the value together
with the remaining bytes. -/

/-- Modelled from the spec: the free function `encodeTagNumber` of package
`internal/apdu`, missing from `src/`. Spec §4.2.1: a tag number below 15
goes into bits 7-4 of the control byte with no trailing byte; otherwise
bits 7-4 are set to 0xF and the tag number is one trailing byte (matches
the tests: 14 gives control 0xE0 and no trailing bytes, 20 gives 0xF0 and
`[20]`). -/
def encodeTagNumber (control tagNumber : Nat) : Nat × List Nat :=
  if tagNumber < 15 then ((tagNumber <<< 4) % 256, [])
  else (0xF0 ||| control, [tagNumber])

/-- Modelled from the spec: the free function `encodeClass` of package
`internal/apdu`, missing from `src/`. Spec §4.2.2: OR `(class << 3)` into
the control byte. -/
def encodeClass (control t : Nat) : Nat :=
  control ||| ((t <<< 3) % 256)

/-- Modelled from the spec: the free function `encodeLength` of package
`internal/apdu`, missing from `src/`. Spec §4.2.3: lengths up to 4 go into
the control byte; 5..253 set lvt to 5 with one trailing byte; 254..65535 set
lvt to 5 with `0xFE` and two big-endian bytes; 65536..2^32-1 set lvt to 5
with `0xFF` and four big-endian bytes; larger lengths fail with
value-too-large (matches the tests in `src/unnamed/part_000`). -/
def encodeLength (control len : Nat) : Except BErr (Nat × List Nat) :=
  if len ≤ 4 then .ok (control ||| len, [])
  else if len ≤ 253 then .ok (control ||| 5, EncodeUint len 1)
  else if len ≤ 65535 then .ok (control ||| 5, 254 :: EncodeUint len 2)
  else if len ≤ 0xFFFFFFFF then .ok (control ||| 5, 255 :: EncodeUint len 4)
  else .error .valueTooLarge

/-- Modelled from the spec: the free function `decodeTagNumber` of package
`internal/apdu`, missing from `src/`. Inverse of §4.2.1: if bits 7-4 hold
0xF the tag number is the next byte (insufficient-data when the buffer is
empty, per the tests); otherwise it is bits 7-4 themselves. -/
def decodeTagNumber (control : Nat) (buf : List Nat) : Except BErr (Nat × List Nat) :=
  if control >>> 4 == 0xF then
    match buf with
    | [] => .error .insufficientData
    | b :: rest => .ok (b, rest)
  else .ok (control >>> 4, buf)

/-- Modelled from the spec: the free function `decodeClass` of package
`internal/apdu`, missing from `src/`. Spec §4.2.2: the class is bit 3 of
the control byte. -/
def decodeClass (control : Nat) : Nat :=
  (control >>> 3) &&& 1

/-- Modelled from the spec: the free function `decodeLength` of package
`internal/apdu`, missing from `src/`. Spec §4.2.3: an lvt of at most 4 is
itself the length; otherwise read the next byte: 0-253 is the length, 254
means two more big-endian bytes, 255 means four more (each missing byte is
insufficient-data, per the tests). The spec does not say what an lvt of 6
or 7 decodes to; this model sends them down the same read path, which no
theorem below relies on. -/
def decodeLength (control : Nat) (buf : List Nat) : Except BErr (Nat × List Nat) :=
  let lvt := control &&& 0x7
  if lvt ≤ 4 then .ok (lvt, buf)
  else
    match buf with
    | [] => .error .insufficientData
    | b :: rest =>
      if b ≤ 253 then .ok (b, rest)
      else if b == 254 then
        match rest with
        | b1 :: b2 :: rest2 => .ok (DecodeUint [b1, b2], rest2)
        | _ => .error .insufficientData
      else
        match rest with
        | b1 :: b2 :: b3 :: b4 :: rest2 => .ok (DecodeUint [b1, b2, b3, b4], rest2)
        | _ => .error .insufficientData

/-! ## Context-specific object identifier (`src/internal/apdu/context_specific.go`) -/

/-- `ContextSpecificObjectIDType` (`src/internal/apdu/context_specific.go`
lines 82-88): `objectType` and `objectInstance` are Go `uint32`. -/
structure ContextSpecificObjectIDType where
  TagNumber : Nat
  objectType : Nat
  objectInstance : Nat
  deriving DecidableEq

/-- `NewContextSpecificObjectID` (`src/internal/apdu/context_specific.go`
lines 247-258): the validation masks are exactly the source's `0xFC00` and
`0xFF800000`. -/
def NewContextSpecificObjectID (tagNumber objectType objectInstance : Nat) :
    Except BErr ContextSpecificObjectIDType :=
  if objectType &&& 0xFC00 != 0 || objectInstance &&& 0xFF800000 != 0 then
    .error .invalidData
  else
    .ok ⟨tagNumber, objectType, objectInstance⟩

/-- `ContextSpecificObjectIDType.EncodeAsTagData`
(`src/internal/apdu/context_specific.go` lines 299-327). The `class`
argument is ignored by the source, which always encodes
`TagContextSpecificClass` (= 1). `p.objectType << 22` is a Go `uint32`
shift, wrapping modulo 2^32. -/
def ContextSpecificObjectIDType.EncodeAsTagData (p : ContextSpecificObjectIDType)
    (_tagClass : Nat) : Except BErr (List Nat) := do
  let control := 0
  let (control, tagBytes) := encodeTagNumber control p.TagNumber
  let control := encodeClass control 1
  let (control, lengthBytes) ← encodeLength control 4
  let shiftedType := (p.objectType <<< 22) % 2 ^ 32
  let stuffedVal := shiftedType ||| p.objectInstance
  .ok ([control] ++ tagBytes ++ lengthBytes ++ EncodeUint stuffedVal 4)

/-- `NewContextSpecificObjectIDFromBytes`
(`src/internal/apdu/context_specific.go` lines 261-296). Reading `tagLen`
bytes from the buffer fails with `io.EOF` on an empty buffer and with
`ErrInsufficientData` when fewer than `tagLen` bytes are read. The decoding
masks are exactly the source's `0xFFB00000` and `0x003FFFFF`; `uint32(x)`
of the 4-byte value is a no-op numerically and is written `% 2 ^ 32`. -/
def NewContextSpecificObjectIDFromBytes (tagBuf : List Nat) :
    Except BErr ContextSpecificObjectIDType := do
  match tagBuf with
  | [] => .error .eof
  | control :: rest =>
    let (tagNumber, rest) ← decodeTagNumber control rest
    let tagClass := decodeClass control
    if tagClass != 1 then .error (.other ("Expected ContextSpecificTagClass"))
    else do
      let (tagLen, rest) ← decodeLength control rest
      if tagLen != 4 then .error .invalidData
      else if rest.isEmpty && tagLen != 0 then .error .eof
      else if rest.length < tagLen then .error .insufficientData
      else
        let stuffedValue := DecodeUint (rest.take tagLen)
        .ok ⟨tagNumber,
             ((stuffedValue % 2 ^ 32) &&& 0xFFB00000) >>> 22,
             (stuffedValue % 2 ^ 32) &&& 0x003FFFFF⟩

/-! ## BVLC codec (`src/pkg/transport/handler.go`) -/

/-- `BVLCType` (fixed first byte 0x81). -/
def BVLCType : Nat := 0x81

/-- `BVLCMessage` (`src/pkg/transport/handler.go`): `Function` is a Go
`uint8`-based enum, `Data` the payload bytes. -/
structure BVLCMessage where
  Function : Nat
  Data : List Nat
  deriving DecidableEq

/-- `verifyFunction` (`src/pkg/transport/handler.go` lines 166-176): the
seven recognised BVLC function codes. -/
def verifyFunction (maybe : Nat) : Bool :=
  maybe == 0 || maybe == 1 || maybe == 2 || maybe == 3 || maybe == 4 ||
  maybe == 10 || maybe == 11

/-- `BVLCMessage.Encode` (`src/pkg/transport/handler.go` lines 221-233):
`0x81`, the function byte (`byte(m.Function)`, hence `% 256`), the two-byte
length `EncodeUint(len(m.Data)+4, 2)`, then the data. -/
def BVLCMessage.Encode (m : BVLCMessage) : List Nat :=
  [BVLCType, m.Function % 256] ++ EncodeUint (m.Data.length + 4) 2 ++ m.Data

/-- `NewBVLCMessageFromBytes` (`src/pkg/transport/handler.go` lines 178-218).
`msgLength - BVLCHeaderLength` is Go `uint` subtraction, wrapping modulo
2^64; a declared length below 4 therefore yields an astronomically large
`dataLength` and the subsequent read fails (in Go the `make` would already
fail; either way no message is returned, and no theorem below reaches that
case). Trailing bytes beyond `dataLength` are ignored (zero padding). -/
def NewBVLCMessageFromBytes (encoded : List Nat) : Except BErr BVLCMessage :=
  match encoded with
  | [] => .error .eof
  | bvlcType :: rest =>
    if bvlcType != BVLCType then .error (.other ("BVLCType mismatch")) else
    match rest with
    | [] => .error .eof
    | b :: rest =>
      if !(verifyFunction b) then .error (.other ("invalid value for BVLCFunction")) else
      match rest with
      | l0 :: l1 :: rest =>
        let msgLength := DecodeUint [l0, l1]
        let dataLength := (msgLength + (2 ^ 64 - 4)) % 2 ^ 64
        if rest.length < dataLength then .error .insufficientData
        else .ok ⟨b, rest.take dataLength⟩
      | _ => .error .insufficientData

/-! ## NPDU codec (`src/pkg/npdu/npdu.go`) -/

/-- `Control` (`src/pkg/npdu/npdu.go` lines 73-79): `Priority` is a Go
`uint8`-based enum. -/
structure Control where
  Priority : Nat
  IsBACNetConfirmedRequestPDUPresent : Bool
  SourceAddressPresent : Bool
  DestinationAddressPresent : Bool
  IsNDSUNetworkLayerMessage : Bool
  deriving DecidableEq

/-- `encodeControl` (`src/pkg/npdu/npdu.go` lines 174-199): build the byte
by OR-ing each flag at bit 0 and shifting left, ending with the two
priority bits. -/
def encodeControl (ctrl : Control) : Nat :=
  let encoded := if ctrl.IsNDSUNetworkLayerMessage then 1 else 0
  let encoded := encoded <<< 2
  let encoded := if ctrl.DestinationAddressPresent then encoded ||| 1 else encoded
  let encoded := encoded <<< 2
  let encoded := if ctrl.SourceAddressPresent then encoded ||| 1 else encoded
  let encoded := encoded <<< 1
  let encoded := if ctrl.IsBACNetConfirmedRequestPDUPresent then encoded ||| 1 else encoded
  let encoded := encoded <<< 2
  encoded ||| ctrl.Priority

/-- `decodeControl` (`src/pkg/npdu/npdu.go` lines 202-212). -/
def decodeControl (data : Nat) : Control :=
  { Priority := data &&& 0b00000011
    IsBACNetConfirmedRequestPDUPresent := data &&& 0b00000100 != 0
    SourceAddressPresent := data &&& 0b00001000 != 0
    DestinationAddressPresent := data &&& 0b00100000 != 0
    IsNDSUNetworkLayerMessage := data &&& 0b10000000 != 0 }

/-- `Address` (`src/pkg/npdu/npdu.go` lines 86-96): `Network` is `uint16`,
`Length` is `uint8`. -/
structure Address where
  Network : Nat
  Length : Nat
  Addr : List Nat
  deriving DecidableEq

/-- `writeDoubleByte` (`src/pkg/npdu/npdu.go` lines 163-171):
`binary.BigEndian.PutUint16`, i.e. `byte(v >> 8)` then `byte(v)`. -/
def writeDoubleByte (db : Nat) : List Nat :=
  [(db >>> 8) % 256, db % 256]

/-- `writeAddress` (`src/pkg/npdu/npdu.go` lines 214-228): network, length
byte, then the address bytes only when `Length > 0`. -/
def writeAddress (addr : Address) : List Nat :=
  writeDoubleByte addr.Network ++ [addr.Length % 256] ++
    (if addr.Length > 0 then addr.Addr else [])

/-- `Message` (`src/pkg/npdu/npdu.go` lines 105-114). The embedded
`apdu.Message` interface value is modelled by the result of its `Encode()`
call (the only use `Message.Encode` makes of it); `none` is a Go `nil`
interface. -/
structure Message where
  ProtocolVersion : Nat
  Control : Control
  Destination : Option Address
  Source : Option Address
  HopCount : Option Nat
  MessageType : Nat
  VendorID : Option Nat
  APDU : Option (Except BErr (List Nat))

/-- The destination-address block of `Message.Encode` (`src/pkg/npdu/npdu.go`
lines 269-273): the bytes it writes, or the panic from dereferencing a nil
`m.Destination`. -/
def encodeDestPart (m : Message) : Except BErr (List Nat) :=
  if m.Control.DestinationAddressPresent then
    match m.Destination with
    | some a => .ok (writeAddress a)
    | none => .error .panicked
  else .ok []

/-- The source-address block of `Message.Encode` (`src/pkg/npdu/npdu.go`
lines 274-278). -/
def encodeSrcPart (m : Message) : Except BErr (List Nat) :=
  if m.Control.SourceAddressPresent then
    match m.Source with
    | some a => .ok (writeAddress a)
    | none => .error .panicked
  else .ok []

/-- The hop-count block of `Message.Encode` (`src/pkg/npdu/npdu.go` lines
279-283): written iff the destination is present; `*m.HopCount` on a nil
pointer is a panic. -/
def encodeHopPart (m : Message) : Except BErr (List Nat) :=
  if m.Control.DestinationAddressPresent then
    match m.HopCount with
    | some h => .ok [h % 256]
    | none => .error .panicked
  else .ok []

/-- The message-type / APDU block of `Message.Encode` (`src/pkg/npdu/npdu.go`
lines 285-299): the network-message-type byte for NDSU messages, otherwise
the encoded APDU, otherwise the error built by the source with `fmt.Errorf`. -/
def encodeTailPart (m : Message) : Except BErr (List Nat) :=
  if m.Control.IsNDSUNetworkLayerMessage then
    .ok [m.MessageType % 256]
  else
    match m.APDU with
    | some r => r
    | none =>
      .error (.other ("Message was not a NDSU, but does not have application data"))

/-- `Message.Encode` (`src/pkg/npdu/npdu.go` lines 258-302): protocol
version, control byte, then the conditional blocks in source order; the
first failing block determines the error, as in the early returns of the source.
`VendorID` is never written by the source. -/
def Message.Encode (m : Message) : Except BErr (List Nat) :=
  (encodeDestPart m).bind fun destBytes =>
  (encodeSrcPart m).bind fun srcBytes =>
  (encodeHopPart m).bind fun hopBytes =>
  (encodeTailPart m).bind fun tailBytes =>
  .ok ([m.ProtocolVersion % 256, encodeControl m.Control % 256] ++
       destBytes ++ srcBytes ++ hopBytes ++ tailBytes)

/-! ## Dispatch-nexus registration (`src/unnamed/part_004`)

The Go registries are `map[uint8][]HandlerType`; a map whose stored slices
are always non-empty is modelled as an association list with unique keys:
`lookupFilter` is the source's first loop (`for filter, handlers := range
handlerMap { if filter == newFilter { ... } }`), `setFilter` the map
assignment `handlerMap[newFilter] = writeHandlers`. Handlers are any type
`H` with the `Equatable` equality test `eq`. -/

/-- `isRegistered` (`src/unnamed/part_004` lines 216-224): is any existing
handler `Equals` to the new one. -/
def isRegistered {H : Type} (eq : H → H → Bool) (handler : H) (existing : List H) : Bool :=
  existing.any fun h => eq h handler

/-- The lookup loop of `registerGeneric` (`src/unnamed/part_004` lines
195-202). -/
def lookupFilter {H : Type} (handlerMap : List (Nat × List H)) (f : Nat) :
    Option (List H) :=
  match handlerMap with
  | [] => none
  | (k, v) :: rest => if k == f then some v else lookupFilter rest f

/-- The map assignment `handlerMap[newFilter] = writeHandlers` of
`registerGeneric` (`src/unnamed/part_004` line 213). -/
def setFilter {H : Type} (handlerMap : List (Nat × List H)) (f : Nat) (v : List H) :
    List (Nat × List H) :=
  match handlerMap with
  | [] => [(f, v)]
  | (k, w) :: rest => if k == f then (k, v) :: rest else (k, w) :: setFilter rest f v

/-- `registerGeneric` (`src/unnamed/part_004` lines 192-214): look up the
filter's handler list; append the handler unless an equal one is already
registered; store the list back under the filter. -/
def registerGeneric {H : Type} (eq : H → H → Bool) (newFilter : Nat) (handler : H)
    (handlerMap : List (Nat × List H)) : List (Nat × List H) :=
  match lookupFilter handlerMap newFilter with
  | some writeHandlers =>
    if isRegistered eq handler writeHandlers then
      setFilter handlerMap newFilter writeHandlers
    else
      setFilter handlerMap newFilter (writeHandlers ++ [handler])
  | none => setFilter handlerMap newFilter [handler]

/-! ## Helper lemmas about the primitives -/

theorem byte_extract_pow (v s : Nat) :
    (v &&& ((2 ^ 8 - 1) <<< s)) >>> s = (v >>> s) % 2 ^ 8 := by
  apply Nat.eq_of_testBit_eq
  intro i
  simp only [Nat.testBit_shiftRight, Nat.testBit_and, Nat.testBit_mod_two_pow,
    Nat.testBit_shiftLeft, Nat.testBit_two_pow_sub_one]
  simp [Nat.add_sub_cancel_left, Bool.and_comm]

theorem byte_extract (v s : Nat) :
    (v &&& (0xFF <<< s)) >>> s = (v >>> s) % 256 := by
  have h : (0xFF : Nat) = 2 ^ 8 - 1 := by norm_num
  have h2 : (256 : Nat) = 2 ^ 8 := by norm_num
  rw [h, h2, byte_extract_pow]

theorem encodeUint_succ (v n : Nat) :
    EncodeUint v (n + 1) = ((v &&& (0xFF <<< (n * 8))) >>> (n * 8)) :: EncodeUint v n := by
  simp [EncodeUint, List.range_succ_eq_map, List.map_map]
  intro a _
  rw [show n - (a + 1) = n - 1 - a from by omega]

theorem length_encodeUint (v n : Nat) : (EncodeUint v n).length = n := by
  simp [EncodeUint]

theorem decodeUint_cons (b : Nat) (l : List Nat) :
    DecodeUint (b :: l) = b <<< (l.length * 8) + DecodeUint l := by
  simp [DecodeUint, List.range_succ_eq_map, List.map_map]
  congr 1
  apply List.map_congr_left
  intro i _
  simp only [Function.comp_apply, List.getElem?_cons_succ]
  rw [show l.length - (i + 1) = l.length - 1 - i from by omega]

theorem decode_encode (v : Nat) : ∀ n, DecodeUint (EncodeUint v n) = v % 2 ^ (8 * n) := by
  intro n
  induction n with
  | zero => simp [EncodeUint, DecodeUint, Nat.mod_one]
  | succ n ih =>
    rw [encodeUint_succ, decodeUint_cons, length_encodeUint, ih, byte_extract]
    rw [Nat.shiftLeft_eq, Nat.shiftRight_eq_div_pow]
    have h256 : (2 : Nat) ^ (8 * (n + 1)) = 2 ^ (8 * n) * 256 := by
      rw [show 8 * (n + 1) = 8 * n + 8 from by omega, pow_add]
      norm_num
    rw [h256, Nat.mod_mul]
    ring_nf

theorem encodeUint_two (v : Nat) :
    EncodeUint v 2 = [(v >>> 8) % 256, v % 256] := by
  have h8 := byte_extract v 8
  have h0 := byte_extract v 0
  simp only [Nat.shiftRight_zero] at h0
  unfold EncodeUint
  rw [show List.range 2 = [0, 1] from rfl]
  simp only [List.map_cons, List.map_nil]
  rw [show (2 - 1 - 0) * 8 = 8 from rfl, show (2 - 1 - 1) * 8 = 0 from rfl, h8, h0]
  simp [Nat.shiftRight_zero]

theorem byteSize_spec (v : Nat) (hv : v < 2 ^ 64) :
    1 ≤ GetUnsignedIntByteSize v ∧ GetUnsignedIntByteSize v ≤ 8 ∧
    v < 2 ^ (8 * GetUnsignedIntByteSize v) ∧
    ∀ m, 1 ≤ m → v < 2 ^ (8 * m) → GetUnsignedIntByteSize v ≤ m := by
  unfold GetUnsignedIntByteSize
  split_ifs with h1 h2 h3 h4 h5 h6 h7 <;>
    refine ⟨by norm_num, by norm_num, by norm_num; omega, ?_⟩ <;>
    intro m hm hvm <;> by_contra hc <;> push_neg at hc <;>
    interval_cases m <;> norm_num at hvm <;> omega

/-! ## Claim theorems -/

/-- C2: for every unsigned value `v` in `[0, 2^64)`, decoding the bytes
produced by encoding `v` at its computed byte size returns `v`:
`DecodeUint (EncodeUint v (GetUnsignedIntByteSize v)) = v`. -/
theorem uint_roundtrip_at_computed_size (v : Nat) (hv : v < 2 ^ 64) :
    DecodeUint (EncodeUint v (GetUnsignedIntByteSize v)) = v := by
  rw [decode_encode]
  exact Nat.mod_eq_of_lt (byteSize_spec v hv).2.2.1

/-- Witness for C2 at `v = 381`. -/
theorem uint_roundtrip_at_computed_size_witness :
    381 < 2 ^ 64 ∧ DecodeUint (EncodeUint 381 (GetUnsignedIntByteSize 381)) = 381 :=
  ⟨by norm_num, uint_roundtrip_at_computed_size 381 (by norm_num)⟩

/-- C6: for every unsigned value `v` in `[0, 2^64)`,
`GetUnsignedIntByteSize v` is the smallest `n ∈ [1,8]` with `v < 2^(8n)`. -/
theorem byte_size_minimal (v : Nat) (hv : v < 2 ^ 64) :
    1 ≤ GetUnsignedIntByteSize v ∧ GetUnsignedIntByteSize v ≤ 8 ∧
    v < 2 ^ (8 * GetUnsignedIntByteSize v) ∧
    ∀ m, 1 ≤ m → v < 2 ^ (8 * m) → GetUnsignedIntByteSize v ≤ m :=
  byteSize_spec v hv

/-- Witness for C6 at `v = 70000` (byte size 3). -/
theorem byte_size_minimal_witness :
    70000 < 2 ^ 64 ∧
    (1 ≤ GetUnsignedIntByteSize 70000 ∧ GetUnsignedIntByteSize 70000 ≤ 8 ∧
     70000 < 2 ^ (8 * GetUnsignedIntByteSize 70000) ∧
     ∀ m, 1 ≤ m → 70000 < 2 ^ (8 * m) → GetUnsignedIntByteSize 70000 ≤ m) :=
  ⟨by norm_num, byte_size_minimal 70000 (by norm_num)⟩

/-- C10: for every unsigned value `v` and width `n ∈ [1,8]`, encoding at the
explicit width and decoding truncates rather than fails:
`DecodeUint (EncodeUint v n) = v % 2^(8n)`; in particular the BVLC encoder's
two-byte length field declares `(len(data) + 4) % 2^16`. -/
theorem uint_roundtrip_explicit_width (v n : Nat) (m : BVLCMessage)
    (hv : v < 2 ^ 64) (hn1 : 1 ≤ n) (hn8 : n ≤ 8) :
    DecodeUint (EncodeUint v n) = v % 2 ^ (8 * n) ∧
    DecodeUint (((BVLCMessage.Encode m).drop 2).take 2) = (m.Data.length + 4) % 2 ^ 16 := by
  constructor
  · exact decode_encode v n
  · have h2 : EncodeUint (m.Data.length + 4) 2 =
        [((m.Data.length + 4) >>> 8) % 256, (m.Data.length + 4) % 256] :=
      encodeUint_two _
    simp only [BVLCMessage.Encode, h2, List.cons_append, List.nil_append,
      List.drop_succ_cons, List.drop_zero, List.take_succ_cons, List.take_zero]
    rw [← h2, decode_encode]

/-- Witness for C10 at `v = 381`, `n = 1`, and a concrete BVLC message. -/
theorem uint_roundtrip_explicit_width_witness :
    381 < 2 ^ 64 ∧ 1 ≤ 1 ∧ 1 ≤ 8 ∧
    (DecodeUint (EncodeUint 381 1) = 381 % 2 ^ (8 * 1) ∧
     DecodeUint (((BVLCMessage.Encode ⟨11, [1, 2, 3]⟩).drop 2).take 2) =
       ((BVLCMessage.Data ⟨11, [1, 2, 3]⟩).length + 4) % 2 ^ 16) :=
  ⟨by norm_num, by norm_num, by norm_num,
   uint_roundtrip_explicit_width 381 1 ⟨11, [1, 2, 3]⟩ (by norm_num) (by norm_num)
     (by norm_num)⟩

/-- C3 (code bug): both cited `encodeTagNumber` methods use the condition
`tagNumber < 14`, so tag number 14 — which the same files' header comments
("tags from 0-14 will be in the first four bits") and the package's own test
for the sibling free function (14 ↦ control 0xE0, no trailing byte) place in
the direct form — is emitted in the overflow form: control byte 0xF0 with
trailing byte 14. The spec-modelled free `encodeTagNumber` (threshold 15)
encodes it directly. -/
theorem tagNumber_threshold_bug :
    TagTypeBase.encodeTagNumber 0 14 = (0xF0, [14]) ∧
    APDUTypeBase.encodeTagNumber 0 14 = (0xF0, [14]) ∧
    encodeTagNumber 0 14 = (0xE0, []) := by
  decide

/-- C4 (code bug): `ApplicationBoolType.EncodeAsTagData` emits exactly one
byte, but for the value `false` it sets lvt bit 1 (`control |= 1 << 1`),
producing `0x12` (lvt `010`), where the claim — and the source's own comment
"False: 000, True: 001" — requires `0x10` (lvt `000`). The `true` case
produces `0x11` (lvt `001`) as claimed. -/
theorem application_bool_false_encoding_bug :
    ApplicationBoolType.EncodeAsTagData ⟨false⟩ 0 = [0x12] ∧
    ApplicationBoolType.EncodeAsTagData ⟨true⟩ 0 = [0x11] := by
  decide

/-- C5 (code bug): the cited `encodeLength` methods emit the prescribed
width classes for `L ≤ 4`, `5 ≤ L ≤ 253` and `254 ≤ L ≤ 65535`, but for
`L ≥ 65536` they write `lengthBytes[0] = 255` on a nil slice — an
index-out-of-range panic (`BErr.panicked`) — instead of the claimed
`0xFF` plus four big-endian bytes. -/
theorem encodeLength_large_length_panic :
    TagTypeBase.encodeLength 0 4 = .ok (4, []) ∧
    TagTypeBase.encodeLength 0 5 = .ok (5, [5]) ∧
    TagTypeBase.encodeLength 0 253 = .ok (5, [253]) ∧
    TagTypeBase.encodeLength 0 254 = .ok (5, [254, 0, 254]) ∧
    TagTypeBase.encodeLength 0 65535 = .ok (5, [254, 255, 255]) ∧
    TagTypeBase.encodeLength 0 65536 = .error .panicked ∧
    APDUTypeBase.encodeLength 0 65536 = .error .panicked := by
  decide

/-- C1 (code bug): at the source's own test input (tag 2, object type 1,
instance 0x32) construction and encoding succeed and produce the expected
bytes `[0x2C, 0x00, 0x40, 0x00, 0x32]`, but decoding them returns object
type 0, not 1: the decoder's mask `0xFFB00000` drops bit 22 (bit 0 of the
object type). Moreover the constructor's validation masks (`0xFC00`,
`0xFF800000`) miss out-of-range values: `object_type = 2^16` and
`object_instance = 2^22` are accepted instead of failing with
`invalid-data` (object type 1024 is rejected, as the mask does cover
`[2^10, 2^16)`). -/
theorem objectID_roundtrip_bug :
    NewContextSpecificObjectID 2 1 0x32 = .ok ⟨2, 1, 0x32⟩ ∧
    ContextSpecificObjectIDType.EncodeAsTagData ⟨2, 1, 0x32⟩ 1 =
      .ok [0x2C, 0x00, 0x40, 0x00, 0x32] ∧
    NewContextSpecificObjectIDFromBytes [0x2C, 0x00, 0x40, 0x00, 0x32] =
      .ok ⟨2, 0, 0x32⟩ ∧
    NewContextSpecificObjectID 2 (2 ^ 16) 0 = .ok ⟨2, 2 ^ 16, 0⟩ ∧
    NewContextSpecificObjectID 2 0 (2 ^ 22) = .ok ⟨2, 0, 2 ^ 22⟩ ∧
    NewContextSpecificObjectID 2 1024 0 = .error .invalidData := by
  decide

end Modore

namespace Modore

theorem bvlc_fn_lt (f : Nat) (hf : verifyFunction f = true) : f < 256 := by
  simp [verifyFunction] at hf
  rcases hf with h | h | h | h | h | h | h <;> omega

/-- C7 (amended): for every BVLC message whose function is one of the seven
recognised values and whose data is short enough for the two-byte length
field (`len(data) + 4 ≤ 65535`), the encoded frame starts with 0x81, its
declared two-byte big-endian length equals `4 + len(data)`, and decoding the
frame returns a message with the same function and data. -/
theorem bvlc_roundtrip_amended (m : BVLCMessage)
    (hf : verifyFunction m.Function = true)
    (hlen : m.Data.length + 4 ≤ 65535) :
    (BVLCMessage.Encode m).head? = some 0x81 ∧
    DecodeUint (((BVLCMessage.Encode m).drop 2).take 2) = m.Data.length + 4 ∧
    NewBVLCMessageFromBytes (BVLCMessage.Encode m) = .ok m := by
  have hfn : m.Function % 256 = m.Function := Nat.mod_eq_of_lt (bvlc_fn_lt _ hf)
  have h2 := encodeUint_two (m.Data.length + 4)
  have hE : BVLCMessage.Encode m =
      0x81 :: m.Function :: ((m.Data.length + 4) >>> 8) % 256 ::
        (m.Data.length + 4) % 256 :: m.Data := by
    simp [BVLCMessage.Encode, h2, hfn, BVLCType]
  have hdec : DecodeUint [((m.Data.length + 4) >>> 8) % 256, (m.Data.length + 4) % 256] =
      m.Data.length + 4 := by
    rw [← h2, decode_encode]
    exact Nat.mod_eq_of_lt (by omega)
  refine ⟨by rw [hE]; rfl, ?_, ?_⟩
  · rw [hE]
    simp only [List.drop_succ_cons, List.drop_zero, List.take_succ_cons, List.take_zero]
    exact hdec
  · rw [hE]
    simp only [NewBVLCMessageFromBytes, hf, hdec]
    have hdl : (m.Data.length + 4 + (2 ^ 64 - 4)) % 2 ^ 64 = m.Data.length := by
      rw [show m.Data.length + 4 + (2 ^ 64 - 4) = m.Data.length + 2 ^ 64 from by omega,
        Nat.add_mod_right]
      exact Nat.mod_eq_of_lt (by omega)
    rw [hdl]
    simp [BVLCType, List.take_length]

end Modore

namespace Modore

/-- C7 counterexample: the claim as stated fails at the concrete message
with function byte 5 (not one of the seven recognised BVLC functions) and
empty data: the encoder emits a frame, but decoding it fails instead of
returning the same function and data. -/
theorem bvlc_roundtrip_counterexample :
    NewBVLCMessageFromBytes (BVLCMessage.Encode ⟨5, []⟩) =
      .error (.other ("invalid value for BVLCFunction")) := by
  decide

/-- Witness for C7 (amended) at function 11 with data `[1, 2, 3]`. -/
theorem bvlc_roundtrip_amended_witness :
    verifyFunction 11 = true ∧ ([1, 2, 3] : List Nat).length + 4 ≤ 65535 ∧
    ((BVLCMessage.Encode ⟨11, [1, 2, 3]⟩).head? = some 0x81 ∧
     DecodeUint (((BVLCMessage.Encode ⟨11, [1, 2, 3]⟩).drop 2).take 2) =
       (BVLCMessage.Data ⟨11, [1, 2, 3]⟩).length + 4 ∧
     NewBVLCMessageFromBytes (BVLCMessage.Encode ⟨11, [1, 2, 3]⟩) =
       .ok ⟨11, [1, 2, 3]⟩) :=
  ⟨by decide, by decide,
   bvlc_roundtrip_amended ⟨11, [1, 2, 3]⟩ (by decide) (by decide)⟩

theorem encodeControl_bits (ctrl : Control) (hp : ctrl.Priority < 4) :
    encodeControl ctrl < 256 ∧
    (encodeControl ctrl).testBit 7 = ctrl.IsNDSUNetworkLayerMessage ∧
    (encodeControl ctrl).testBit 6 = false ∧
    (encodeControl ctrl).testBit 5 = ctrl.DestinationAddressPresent ∧
    (encodeControl ctrl).testBit 4 = false ∧
    (encodeControl ctrl).testBit 3 = ctrl.SourceAddressPresent ∧
    (encodeControl ctrl).testBit 2 = ctrl.IsBACNetConfirmedRequestPDUPresent ∧
    encodeControl ctrl % 4 = ctrl.Priority := by
  obtain ⟨p, c, s, d, n⟩ := ctrl
  have hp4 : p < 4 := hp
  interval_cases p <;> cases c <;> cases s <;> cases d <;> cases n <;> decide

end Modore

namespace Modore

theorem npdu_encode_prefix (m : Message) (bs : List Nat) (h : m.Encode = .ok bs) :
    ∃ rest, bs = m.ProtocolVersion % 256 :: encodeControl m.Control % 256 :: rest := by
  unfold Message.Encode at h
  cases h1 : encodeDestPart m with
  | error e => rw [h1] at h; simp [Except.bind] at h
  | ok dB =>
    rw [h1] at h
    cases h2 : encodeSrcPart m with
    | error e => rw [h2] at h; simp [Except.bind] at h
    | ok sB =>
      rw [h2] at h
      cases h3 : encodeHopPart m with
      | error e => rw [h3] at h; simp [Except.bind] at h
      | ok hB =>
        rw [h3] at h
        cases h4 : encodeTailPart m with
        | error e => rw [h4] at h; simp [Except.bind] at h
        | ok tB =>
          rw [h4] at h
          simp only [Except.bind, Except.ok.injEq] at h
          exact ⟨dB ++ sB ++ hB ++ tB, by rw [← h]; simp⟩

/-- C8: for every well-formed NPDU message (protocol version 1, priority
below 4) whose encoding succeeds, the encoded form begins with the byte 1
followed by the control byte, in which the network-layer flag occupies bit
7, the destination-present flag bit 5, the source-present flag bit 3, the
expecting-reply flag bit 2, the priority bits 1-0, and the reserved bits 6
and 4 are encoded as 0. -/
theorem npdu_control_byte_layout (m : Message) (bs : List Nat)
    (hpv : m.ProtocolVersion = 1) (hpr : m.Control.Priority < 4)
    (henc : m.Encode = .ok bs) :
    bs.take 2 = [1, encodeControl m.Control] ∧
    (encodeControl m.Control).testBit 7 = m.Control.IsNDSUNetworkLayerMessage ∧
    (encodeControl m.Control).testBit 6 = false ∧
    (encodeControl m.Control).testBit 5 = m.Control.DestinationAddressPresent ∧
    (encodeControl m.Control).testBit 4 = false ∧
    (encodeControl m.Control).testBit 3 = m.Control.SourceAddressPresent ∧
    (encodeControl m.Control).testBit 2 = m.Control.IsBACNetConfirmedRequestPDUPresent ∧
    encodeControl m.Control % 4 = m.Control.Priority := by
  obtain ⟨hlt, hbits⟩ := encodeControl_bits m.Control hpr
  obtain ⟨rest, hrest⟩ := npdu_encode_prefix m bs henc
  refine ⟨?_, hbits⟩
  rw [hrest, hpv]
  simp [Nat.mod_eq_of_lt hlt]

/-- Witness for C8 at a concrete network-layer message with no addresses. -/
theorem npdu_control_byte_layout_witness :
    (Message.ProtocolVersion ⟨1, ⟨0, false, false, false, true⟩, none, none, none, 0, none, none⟩ = 1) ∧
    ((Message.Control ⟨1, ⟨0, false, false, false, true⟩, none, none, none, 0, none, none⟩).Priority < 4) ∧
    (Message.Encode ⟨1, ⟨0, false, false, false, true⟩, none, none, none, 0, none, none⟩ =
      .ok [1, 0x80, 0]) ∧
    (([1, 0x80, 0] : List Nat).take 2 =
       [1, encodeControl ⟨0, false, false, false, true⟩] ∧
     (encodeControl ⟨0, false, false, false, true⟩).testBit 7 = true ∧
     (encodeControl ⟨0, false, false, false, true⟩).testBit 6 = false ∧
     (encodeControl ⟨0, false, false, false, true⟩).testBit 5 = false ∧
     (encodeControl ⟨0, false, false, false, true⟩).testBit 4 = false ∧
     (encodeControl ⟨0, false, false, false, true⟩).testBit 3 = false ∧
     (encodeControl ⟨0, false, false, false, true⟩).testBit 2 = false ∧
     encodeControl ⟨0, false, false, false, true⟩ % 4 = 0) :=
  ⟨rfl, by decide, by decide,
   npdu_control_byte_layout ⟨1, ⟨0, false, false, false, true⟩, none, none, none, 0, none, none⟩
     [1, 0x80, 0] rfl (by decide) (by decide)⟩

end Modore

namespace Modore

theorem lookup_set {H : Type} (m : List (Nat × List H)) (f : Nat) (v : List H) :
    lookupFilter (setFilter m f v) f = some v := by
  induction m with
  | nil => simp [setFilter, lookupFilter]
  | cons kv rest ih =>
    obtain ⟨k, w⟩ := kv
    by_cases hk : k = f <;> simp [setFilter, lookupFilter, hk, ih]

theorem set_lookup_self {H : Type} (m : List (Nat × List H)) (f : Nat) (v : List H)
    (h : lookupFilter m f = some v) : setFilter m f v = m := by
  induction m with
  | nil => simp [lookupFilter] at h
  | cons kv rest ih =>
    obtain ⟨k, w⟩ := kv
    by_cases hk : k = f
    · simp [lookupFilter, hk] at h
      simp [setFilter, hk, h]
    · simp [lookupFilter, hk] at h
      simp [setFilter, hk, ih h]

theorem set_set {H : Type} (m : List (Nat × List H)) (f : Nat) (v w : List H) :
    setFilter (setFilter m f v) f w = setFilter m f w := by
  induction m with
  | nil => simp [setFilter]
  | cons kv rest ih =>
    obtain ⟨k, x⟩ := kv
    by_cases hk : k = f <;> simp [setFilter, hk, ih]

/-- C9: handler registration is idempotent per (filter, handler) pair:
registering the same handler a second time under the same filter leaves the
registry unchanged, and the handler appears at most once in that filter's
handler list, decided by the handler's equality test (hypotheses: the test
holds reflexively at the handler, and the list held no duplicate yet). -/
theorem register_idempotent {H : Type} (eq : H → H → Bool) (f : Nat) (h : H)
    (m : List (Nat × List H)) (heq : eq h h = true)
    (hm : ∀ l₀, lookupFilter m f = some l₀ → l₀.countP (fun x => eq x h) ≤ 1) :
    registerGeneric eq f h (registerGeneric eq f h m) = registerGeneric eq f h m ∧
    ∀ l, lookupFilter (registerGeneric eq f h m) f = some l →
      l.countP (fun x => eq x h) ≤ 1 := by
  cases hmf : lookupFilter m f with
  | none =>
    have hreg : registerGeneric eq f h m = setFilter m f [h] := by
      simp [registerGeneric, hmf]
    constructor
    · rw [hreg]
      have hl : lookupFilter (setFilter m f [h]) f = some [h] := lookup_set m f [h]
      have hr : isRegistered eq h [h] = true := by simp [isRegistered, heq]
      simp [registerGeneric, hl, hr, set_set]
    · intro l hl
      rw [hreg, lookup_set] at hl
      cases hl
      simp [List.countP_cons, heq]
  | some hs =>
    by_cases hreg' : isRegistered eq h hs = true
    · have hreg : registerGeneric eq f h m = m := by
        simp [registerGeneric, hmf, hreg', set_lookup_self m f hs hmf]
      rw [hreg]
      exact ⟨hreg, hm⟩
    · have hany : isRegistered eq h (hs ++ [h]) = true := by
        simp [isRegistered, heq] at hreg' ⊢
      have hreg : registerGeneric eq f h m = setFilter m f (hs ++ [h]) := by
        simp [registerGeneric, hmf, hreg']
      constructor
      · rw [hreg]
        have hl := lookup_set m f (hs ++ [h])
        simp [registerGeneric, hl, hany, set_set]
      · intro l hl
        rw [hreg, lookup_set] at hl
        cases hl
        have hzero : hs.countP (fun x => eq x h) = 0 := by
          rw [List.countP_eq_zero]
          intro a ha
          simp [isRegistered] at hreg'
          simpa using hreg' a ha
        simp [List.countP_append, hzero, List.countP_cons, heq]

/-- Witness for C9 with natural-number handlers under `==`, filter 3,
handler 7, empty registry. -/
theorem register_idempotent_witness :
    ((fun a b : Nat => a == b) 7 7 = true) ∧
    (∀ l₀, lookupFilter ([] : List (Nat × List Nat)) 3 = some l₀ →
       l₀.countP (fun x => x == 7) ≤ 1) ∧
    (registerGeneric (fun a b : Nat => a == b) 3 7
        (registerGeneric (fun a b : Nat => a == b) 3 7 []) =
      registerGeneric (fun a b : Nat => a == b) 3 7 [] ∧
     ∀ l, lookupFilter (registerGeneric (fun a b : Nat => a == b) 3 7 []) 3 = some l →
       l.countP (fun x => x == 7) ≤ 1) :=
  ⟨by decide, by intro l₀ hl; simp [lookupFilter] at hl,
   register_idempotent (fun a b : Nat => a == b) 3 7 [] (by decide)
     (by intro l₀ hl; simp [lookupFilter] at hl)⟩

end Modore
